import Mathlib

/-!
Shallow embedding of the telemetry metrics aggregation core of the
repository (file `src/index.py`, FastAPI app "eShopCo Telemetry Metrics").

Modelling conventions:
* Python floats are modelled as exact rationals (`ℚ`).  All arithmetic in
  the source (sums, division, `f / 100`, comparisons, `math.ceil`) is
  exact rational arithmetic here.
* A JSON value occurring in a dataset row is modelled by `JVal`: JSON
  null, booleans, numbers, and strings.  A string carries the abstract
  result of Python `float(s)` (`none` when `float` raises).  Nested
  arrays and objects are omitted: for every operation the code performs
  on a row value they behave like a non-coercible, truthy value, and no
  claim distinguishes them.
* Python `round(x, n)` (round half to even on the scaled value) is
  modelled by `pyRound`.
* Exceptions are modelled with `Except`: `_ingest_row` can raise
  (`AttributeError` on a truthy non-string region value), and
  `load_records` can fail with the AttributeError or with the
  RuntimeError raised when no usable rows remain (the DataError of the
  spec).  File discovery and JSON text parsing are outside the embedding:
  `load_records` is modelled from the list of parsed row objects.
* The Python dict `out` built by `post_metrics` is modelled as an
  association list with dict insertion semantics (`dictInsert`): an
  existing key keeps its position and gets the new value, a new key is
  appended.
-/

namespace Telemetry

/-- A JSON value stored in a dataset row.  `str s p` is a JSON string
with contents `s`; `p` is the abstract result of Python `float(s)`
(`some q` when the string parses as the number `q`, `none` when
`float` raises `ValueError`). -/
inductive JVal where
  | null : JVal
  | bool : Bool → JVal
  | num : ℚ → JVal
  | str : String → Option ℚ → JVal
deriving DecidableEq

/-- Python truthiness of a `JVal` (used by `row.get("region") or ""`). -/
def truthy : JVal → Bool
  | JVal.null => false
  | JVal.bool b => b
  | JVal.num q => decide (q ≠ 0)
  | JVal.str s _ => decide (s ≠ "")

/-- Python `float(v)`: `none` means the call raises (`TypeError` on
null, `ValueError` on a non-numeric string). `bool` is a numeric type
in Python (`float(True) = 1.0`). -/
def pyFloat : JVal → Option ℚ
  | JVal.null => none
  | JVal.bool b => some (if b then 1 else 0)
  | JVal.num q => some q
  | JVal.str _ p => p

/-- `coerce_uptime` of `src/index.py`: null stays null, booleans map to
1.0 / 0.0, a `float`-coercible value `f` is divided by 100 when
`f > 1.0` and clamped to `[0, 1]`, a non-coercible value maps to null. -/
def coerce_uptime (v : JVal) : Option ℚ :=
  match v with
  | JVal.null => none
  | JVal.bool b => some (if b then 1 else 0)
  | _ =>
    match pyFloat v with
    | none => none
    | some f =>
      if 1 < f then some (max 0 (min 1 (f / 100)))
      else some (max 0 (min 1 f))

/-- Python `str.lower()` (character-wise lowercasing). -/
def pyLower (s : String) : String := String.mk (s.data.map Char.toLower)

/-- Python `str.strip()`: drop leading and trailing whitespace. -/
def pyStrip (s : String) : String :=
  String.mk (((s.data.dropWhile Char.isWhitespace).reverse.dropWhile Char.isWhitespace).reverse)

/-- A parsed dataset row (a JSON object), restricted to the keys the
code reads.  `none` means the key is absent, `some v` that it is
present with value `v` (possibly `JVal.null`). -/
structure Row where
  region : Option JVal := none
  latency_ms : Option JVal := none
  latency : Option JVal := none
  uptime : Option JVal := none
  up : Option JVal := none
  is_up : Option JVal := none
deriving DecidableEq

/-- Python `row.get(key)`: absent keys read as `None`. -/
def rowGet (v : Option JVal) : JVal := v.getD JVal.null

/-- A normalized telemetry record as appended to `records`. -/
structure TelemetryRecord where
  region : String
  latency_ms : ℚ
  uptime : Option ℚ
deriving DecidableEq

/-- Python `.strip().lower()` on a row value: only a string supports
it; on any other value the attribute lookup raises `AttributeError`. -/
def pyStripLower : JVal → Except Unit String
  | JVal.str s _ => Except.ok (pyLower (pyStrip s))
  | _ => Except.error ()

/-- The uptime source value selected by `_ingest_row`:
`up = row.get("uptime"); if up is None: up = row.get("up", row.get("is_up"))`.
A present-but-null `up` key is returned by `row.get("up", default)`
and therefore blocks the `is_up` fallback. -/
def uptimeSource (row : Row) : JVal :=
  let up0 := rowGet row.uptime
  if up0 = JVal.null then
    (if row.up.isSome then rowGet row.up else rowGet row.is_up)
  else up0

/-- `_ingest_row` of `src/index.py`.  `Except.error ()` models an
exception escaping the function (the `AttributeError` raised by
`(row.get("region") or "").strip()` on a truthy non-string region
value); `Except.ok none` a silently dropped row; `Except.ok (some t)`
an accepted row. -/
def _ingest_row (row : Row) : Except Unit (Option TelemetryRecord) :=
  let regionV := if truthy (rowGet row.region) then rowGet row.region else JVal.str "" none
  match pyStripLower regionV with
  | Except.error e => Except.error e
  | Except.ok region =>
    let lat := if row.latency_ms.isSome then rowGet row.latency_ms else rowGet row.latency
    let uptime := coerce_uptime (uptimeSource row)
    match pyFloat lat with
    | none => Except.ok none
    | some l =>
      Except.ok (if region ≠ "" then some ⟨region, l, uptime⟩ else none)

/-- The two fatal errors `load_records` can raise: an exception escaping
`_ingest_row` (AttributeError), or the RuntimeError for a dataset with
zero usable rows (the DataError of the spec). -/
inductive LoadError where
  | attrError : LoadError
  | dataError : LoadError
deriving DecidableEq

/-- The ingestion loop of `load_records`: every parsed row goes through
`_ingest_row`, accepted records accumulate in file order, an exception
aborts the load. -/
def ingestAll : List Row → Except LoadError (List TelemetryRecord)
  | [] => Except.ok []
  | row :: rest =>
    match _ingest_row row with
    | Except.error _ => Except.error LoadError.attrError
    | Except.ok none => ingestAll rest
    | Except.ok (some t) =>
      match ingestAll rest with
      | Except.error e => Except.error e
      | Except.ok l => Except.ok (t :: l)

/-- `load_records` of `src/index.py`, modelled from the list of parsed
row objects (file discovery and JSON text parsing are outside the
embedding; both physical encodings feed rows to `_ingest_row` in file
order).  Raises `dataError` when no usable rows remain. -/
def load_records (rows : List Row) : Except LoadError (List TelemetryRecord) :=
  match ingestAll rows with
  | Except.error e => Except.error e
  | Except.ok recs =>
    if recs.isEmpty then Except.error LoadError.dataError else Except.ok recs

/-- The records accepted by ingestion (in file order). -/
def acceptedRecords (rows : List Row) : List TelemetryRecord :=
  rows.filterMap (fun row =>
    match _ingest_row row with
    | Except.ok o => o
    | Except.error _ => none)

/-- `mean` of `src/index.py`: `sum(values) / len(values)`, `0.0` on an
empty list. -/
def mean (values : List ℚ) : ℚ :=
  if values.isEmpty then 0 else values.sum / values.length

/-- `percentile` of `src/index.py`: nearest-rank selection
`s[max(0, min(len(s) - 1, ceil((q / 100) * len(s)) - 1))]` on the
ascending sort `s` of `values`; `0.0` on an empty list. -/
def percentile (values : List ℚ) (q : ℚ) : ℚ :=
  if values.isEmpty then 0
  else
    let s := values.mergeSort
    let k : ℤ := max 0 (min ((s.length : ℤ) - 1) (⌈q / 100 * (s.length : ℚ)⌉ - 1))
    s.getD k.toNat 0

/-- Python `round` to an integer: round half to even. -/
def pyRoundInt (q : ℚ) : ℤ :=
  if q - ⌊q⌋ < 1 / 2 then ⌊q⌋
  else if 1 / 2 < q - ⌊q⌋ then ⌊q⌋ + 1
  else if Even ⌊q⌋ then ⌊q⌋ else ⌊q⌋ + 1

/-- Python `round(x, d)` for `d ≥ 0`, on the exact rational model. -/
def pyRound (q : ℚ) (d : ℕ) : ℚ := pyRoundInt (q * 10 ^ d) / 10 ^ d

/-- The per-region aggregate returned by `compute_for_region`. -/
structure MetricsResult where
  avg_latency : ℚ
  p95_latency : ℚ
  avg_uptime : ℚ
  breaches : ℕ
deriving DecidableEq

/-- The region condition `x["region"] == r` of both comprehensions in
`compute_for_region`. -/
def region_matches (r : String) (x : TelemetryRecord) : Bool := x.region == r

/-- The uptime comprehension body of `compute_for_region`: the uptime of
a matching record when it is non-null. -/
def uptimeOf (r : String) (x : TelemetryRecord) : Option ℚ :=
  if region_matches r x then x.uptime else none

/-- The breach condition `v > threshold_ms` of `compute_for_region`. -/
def is_breach (threshold_ms v : ℚ) : Bool := decide (threshold_ms < v)

/-- `compute_for_region` of `src/index.py`, with the process-global
`RECORDS` passed explicitly.  Matching is against
`region.lower().strip()`; uptimes keep only non-null values. -/
def compute_for_region (records : List TelemetryRecord) (region : String)
    (threshold_ms : ℚ) : MetricsResult :=
  let r := pyStrip (pyLower region)
  let latencies := (records.filter (region_matches r)).map (fun x => x.latency_ms)
  let uptimes := records.filterMap (uptimeOf r)
  { avg_latency := pyRound (mean latencies) 4
  , p95_latency := pyRound (percentile latencies 95) 4
  , avg_uptime := pyRound (if uptimes.isEmpty then 0 else mean uptimes) 6
  , breaches := latencies.countP (is_breach threshold_ms) }

/-- Python dict assignment `out[k] = v` on an insertion-ordered dict
modelled as an association list: an existing key keeps its position and
receives the new value, a new key is appended. -/
def dictInsert (out : List (String × MetricsResult)) (k : String) (v : MetricsResult) :
    List (String × MetricsResult) :=
  if out.any (fun p => p.1 == k) then
    out.map (fun p => if p.1 == k then (p.1, v) else p)
  else out ++ [(k, v)]

/-- The response-building loop of `post_metrics`:
`for r in body.regions: out[r] = compute_for_region(r, body.threshold_ms)`. -/
def post_metrics (records : List TelemetryRecord) (regions : List String)
    (threshold_ms : ℚ) : List (String × MetricsResult) :=
  regions.foldl (fun out r => dictInsert out r (compute_for_region records r threshold_ms)) []

/-- The request path including the `MetricsRequest` validation
(`regions: min_items=1`, `threshold_ms: gt=0`): an invalid body is
rejected with a client error before `post_metrics` runs. -/
def handle_post (records : List TelemetryRecord) (regions : List String)
    (threshold_ms : ℚ) : Except Unit (List (String × MetricsResult)) :=
  if 1 ≤ regions.length ∧ 0 < threshold_ms then
    Except.ok (post_metrics records regions threshold_ms)
  else Except.error ()

/-- Keys of the input list in first-occurrence order: the key sequence a
Python insertion-ordered dict ends up with when the stored value depends
only on the key. -/
def firstOccurrences (l : List String) : List String :=
  l.foldl (fun acc r => if acc.any (fun x => x == r) then acc else acc ++ [r]) []

/-! Helper lemmas: shared infrastructure, not tied to a single claim. -/

/-- Helper: the ascending `mergeSort` used by `percentile` is the unique
sorted permutation of its input. -/
theorem mergeSort_eq_of_sorted_perm (values s : List ℚ) (hperm : values.Perm s)
    (hsort : s.Sorted (· ≤ ·)) : values.mergeSort = s :=
  List.eq_of_perm_of_sorted ((List.mergeSort_perm values _).trans hperm)
    (List.sorted_mergeSort' values) hsort

/-- Helper: `round` of zero is zero at every decimal width. -/
theorem pyRound_zero (d : ℕ) : pyRound 0 d = 0 := by
  simp [pyRound, pyRoundInt]

/-- Helper: the guarded mean in `compute_for_region` coincides with
`mean` (which is itself zero on the empty list). -/
theorem ite_isEmpty_mean (l : List ℚ) : (if l.isEmpty then (0 : ℚ) else mean l) = mean l := by
  by_cases h : l.isEmpty <;> simp [mean, h]

/-- Helper: the uptime comprehension of `compute_for_region` keeps
exactly the non-null uptimes of the matching records. -/
theorem filterMap_uptime_eq (records : List TelemetryRecord) (r : String) :
    records.filterMap (uptimeOf r) =
      (records.filter (fun x => region_matches r x && x.uptime.isSome)).map
        (fun x => x.uptime.getD 0) := by
  induction records with
  | nil => rfl
  | cons x xs ih =>
    simp only [List.filterMap_cons, List.filter_cons]
    by_cases hr : region_matches r x
    · cases hu : x.uptime with
      | none => simp [uptimeOf, hr, hu, ih]
      | some u => simp [uptimeOf, hr, hu, ih]
    · simp [uptimeOf, hr, ih]

/-- Helper: when no row raises, ingestion returns exactly the accepted
records in file order. -/
theorem ingestAll_eq_of_ok (rows : List Row)
    (h : ∀ row ∈ rows, _ingest_row row ≠ Except.error ()) :
    ingestAll rows = Except.ok (acceptedRecords rows) := by
  induction rows with
  | nil => rfl
  | cons row rest ih =>
    have hrow := h row (by simp)
    have hrest : ∀ r ∈ rest, _ingest_row r ≠ Except.error () := fun r hr => h r (by simp [hr])
    cases hi : _ingest_row row with
    | error e => cases e; exact absurd hi hrow
    | ok o =>
      cases o with
      | none => simp [ingestAll, hi, ih hrest, acceptedRecords, List.filterMap_cons]
      | some t => simp [ingestAll, hi, ih hrest, acceptedRecords, List.filterMap_cons]

/-- Helper: the dict built by repeated `dictInsert` with a key-determined
value is the map of the keys in first-occurrence order. -/
theorem foldl_dictInsert_eq (f : String → MetricsResult) (regions acc : List String) :
    regions.foldl (fun out r => dictInsert out r (f r)) (acc.map (fun x => (x, f x))) =
      (regions.foldl (fun a r => if a.any (fun x => x == r) then a else a ++ [r]) acc).map
        (fun x => (x, f x)) := by
  induction regions generalizing acc with
  | nil => rfl
  | cons r rest ih =>
    have hany : (acc.map (fun x => (x, f x))).any (fun p => p.1 == r) =
        acc.any (fun x => x == r) := by
      induction acc with
      | nil => rfl
      | cons y ys ihy => simp only [List.map_cons, List.any_cons, ihy]
    have hstep : dictInsert (acc.map (fun x => (x, f x))) r (f r) =
        ((if acc.any (fun x => x == r) then acc else acc ++ [r]).map (fun x => (x, f x))) := by
      by_cases hc : acc.any (fun x => x == r)
      · have hmap : ((fun p : String × MetricsResult => if p.1 == r then (p.1, f r) else p) ∘
            (fun x => (x, f x))) = fun x => (x, f x) := by
          funext x
          by_cases hx : x = r
          · subst hx
            show (if (((x, f x)).1 == x) = true then (((x, f x)).1, f x) else (x, f x)) = (x, f x)
            rw [if_pos (by simp)]
          · simp [hx]
        rw [dictInsert, if_pos (by rw [hany]; exact hc), List.map_map, hmap, if_pos hc]
      · rw [dictInsert, if_neg (by rw [hany]; exact hc), if_neg hc, List.map_append]
        rfl
    simp only [List.foldl_cons]
    rw [hstep]
    exact ih _

/-- Helper: `post_metrics` equals the map of the distinct literal region
strings in first-occurrence order. -/
theorem post_metrics_eq (records : List TelemetryRecord) (regions : List String) (t : ℚ) :
    post_metrics records regions t =
      (firstOccurrences regions).map (fun r => (r, compute_for_region records r t)) := by
  have h := foldl_dictInsert_eq (fun r => compute_for_region records r t) regions []
  simpa [post_metrics, firstOccurrences] using h

/-- Helper: every input string occurs among the first occurrences. -/
theorem mem_foldl_firstOcc {a : String} (l : List String) :
    ∀ acc : List String, a ∈ acc ∨ a ∈ l →
      a ∈ l.foldl (fun acc r => if acc.any (fun x => x == r) then acc else acc ++ [r]) acc := by
  induction l with
  | nil =>
    intro acc h
    rcases h with h | h
    · simpa using h
    · cases h
  | cons r rest ih =>
    intro acc h
    simp only [List.foldl_cons]
    apply ih
    rcases h with h | h
    · left
      by_cases hc : acc.any (fun x => x == r)
      · rw [if_pos hc]; exact h
      · rw [if_neg hc]; exact List.mem_append_left _ h
    · rcases List.mem_cons.mp h with rfl | h
      · left
        by_cases hc : acc.any (fun x => x == a)
        · rcases List.any_eq_true.mp hc with ⟨x, hx, hxr⟩
          rw [beq_iff_eq] at hxr
          rw [if_pos hc, ← hxr]
          exact hx
        · rw [if_neg hc]
          exact List.mem_append_right _ (by simp)
      · right; exact h

/-- Helper: membership version of `mem_foldl_firstOcc`. -/
theorem mem_firstOccurrences {a : String} {l : List String} (h : a ∈ l) :
    a ∈ firstOccurrences l :=
  mem_foldl_firstOcc l [] (Or.inr h)

/-- Helper: each requested region appears in the response, keyed by its
literal string, with the engine result for that literal string. -/
theorem mem_post_metrics (records : List TelemetryRecord) {region : String}
    (regions : List String) (t : ℚ) (h : region ∈ regions) :
    (region, compute_for_region records region t) ∈ post_metrics records regions t := by
  rw [post_metrics_eq]
  exact List.mem_map.mpr ⟨region, mem_firstOccurrences h, rfl⟩

/-! Claim theorems, one per claim of the specification review. -/

/-- Claim C1: for every non-empty latency list, `percentile` at q = 95
returns the element of the ascending sorted list at index
`clamp(ceil(0.95 * n) - 1, 0, n - 1)` (nearest-rank, not interpolated),
where `n` is the list length and the sorted list is any sorted
permutation of the input; on an empty latency list (no records matching
the region) it returns 0. -/
theorem claim_p95_nearest_rank (values s : List ℚ) (hne : values ≠ [])
    (hperm : values.Perm s) (hsort : s.Sorted (· ≤ ·)) :
    percentile values 95 =
      s.getD (Int.toNat (max 0 (min ((values.length : ℤ) - 1)
        (⌈(95 : ℚ) / 100 * (values.length : ℚ)⌉ - 1)))) 0 ∧
    percentile [] 95 = 0 := by
  refine ⟨?_, rfl⟩
  have hms : values.mergeSort = s := mergeSort_eq_of_sorted_perm values s hperm hsort
  have hlen : s.length = values.length := hperm.length_eq.symm
  have hne' : values.isEmpty = false := by simp [List.isEmpty_iff, hne]
  simp only [percentile, hne', Bool.false_eq_true, if_false, hms, hlen]

/-- Claim C1 witness: the theorem evaluated on the concrete sorted list
`[1, 2, 3]`. -/
theorem claim_p95_nearest_rank_witness :
    percentile [(1 : ℚ), 2, 3] 95 =
      List.getD [(1 : ℚ), 2, 3] (Int.toNat (max 0 (min ((([(1 : ℚ), 2, 3]).length : ℤ) - 1)
        (⌈(95 : ℚ) / 100 * (([(1 : ℚ), 2, 3]).length : ℚ)⌉ - 1)))) 0 ∧
    percentile [] 95 = 0 :=
  claim_p95_nearest_rank [1, 2, 3] [1, 2, 3] (by simp) (List.Perm.refl _)
    (by norm_num [List.sorted_cons])

/-- Claim C2: `coerce_uptime` maps null to null, booleans to 1 / 0, a
numeric value v > 1 to clamp(v / 100, 0, 1), any other numeric v to
clamp(v, 0, 1) (hence it is the identity on [0, 1]), and a
non-coercible value to null. -/
theorem claim_coerce_uptime :
    coerce_uptime JVal.null = none ∧
    coerce_uptime (JVal.bool true) = some 1 ∧
    coerce_uptime (JVal.bool false) = some 0 ∧
    (∀ v : ℚ, 1 < v → coerce_uptime (JVal.num v) = some (max 0 (min 1 (v / 100)))) ∧
    (∀ v : ℚ, v ≤ 1 → coerce_uptime (JVal.num v) = some (max 0 (min 1 v))) ∧
    (∀ p : ℚ, 0 ≤ p → p ≤ 1 → coerce_uptime (JVal.num p) = some p) ∧
    (∀ str : String, coerce_uptime (JVal.str str none) = none) := by
  refine ⟨rfl, rfl, rfl, ?_, ?_, ?_, fun _ => rfl⟩
  · intro v hv
    simp [coerce_uptime, pyFloat, hv]
  · intro v hv
    simp [coerce_uptime, pyFloat, not_lt.mpr hv]
  · intro p h0 h1
    simp [coerce_uptime, pyFloat, not_lt.mpr h1, min_eq_right h1, max_eq_right h0]

/-- Claim C2 witness: the percentage branch at 95 and the identity
branch at 1/2. -/
theorem claim_coerce_uptime_witness :
    coerce_uptime (JVal.num 95) = some (max 0 (min 1 ((95 : ℚ) / 100))) ∧
    coerce_uptime (JVal.num (1 / 2)) = some (1 / 2) :=
  ⟨claim_coerce_uptime.2.2.2.1 95 (by norm_num),
   claim_coerce_uptime.2.2.2.2.2.1 (1 / 2) (by norm_num) (by norm_num)⟩

/-- Claim C3: `breaches` counts exactly the matching records with
latency strictly above the threshold, and a record whose latency equals
the threshold is never counted (prepending such a record leaves the
count unchanged). -/
theorem claim_breaches_strict (records : List TelemetryRecord) (region : String) (t : ℚ) :
    (compute_for_region records region t).breaches =
      (records.filter (region_matches (pyStrip (pyLower region)))).countP
        (fun x => is_breach t x.latency_ms) ∧
    (∀ y : TelemetryRecord, y.latency_ms = t →
      (compute_for_region (y :: records) region t).breaches =
        (compute_for_region records region t).breaches) := by
  constructor
  · simp only [compute_for_region, List.countP_map]
    rfl
  · intro y hy
    by_cases hr : region_matches (pyStrip (pyLower region)) y
    · simp [compute_for_region, List.filter_cons, hr, List.countP_cons, is_breach, hy]
    · simp [compute_for_region, List.filter_cons, hr]

/-- Claim C3 witness: a record at exactly the threshold is not a breach
while a record above it is. -/
theorem claim_breaches_strict_witness :
    (compute_for_region (TelemetryRecord.mk "x" 5 none :: [TelemetryRecord.mk "x" 7 none]) "x" 5).breaches =
      (compute_for_region [TelemetryRecord.mk "x" 7 none] "x" 5).breaches :=
  (claim_breaches_strict [TelemetryRecord.mk "x" 7 none] "x" 5).2 (TelemetryRecord.mk "x" 5 none) rfl

/-- Claim C8: a request with an empty region list or a non-positive
threshold is rejected with a client error before any per-region
computation happens. -/
theorem claim_validation_rejects (records : List TelemetryRecord) (regions : List String)
    (t : ℚ) (h : regions = [] ∨ t ≤ 0) :
    handle_post records regions t = Except.error () := by
  rcases h with rfl | ht
  · simp [handle_post]
  · have hnot : ¬ 0 < t := not_lt.mpr ht
    simp [handle_post, hnot]

/-- Claim C4: `avg_uptime` is the (rounded) arithmetic mean of the
uptimes of exactly those matching records whose uptime is non-null:
null uptimes enter neither the numerator nor the denominator of `mean`,
and the result is 0 when no matching record has a non-null uptime. -/
theorem claim_avg_uptime_excludes_null (records : List TelemetryRecord) (region : String)
    (t : ℚ) :
    (compute_for_region records region t).avg_uptime =
      pyRound (mean ((records.filter (fun x =>
        region_matches (pyStrip (pyLower region)) x && x.uptime.isSome)).map
          (fun x => x.uptime.getD 0))) 6 ∧
    (records.filter (fun x =>
        region_matches (pyStrip (pyLower region)) x && x.uptime.isSome) = [] →
      (compute_for_region records region t).avg_uptime = 0) := by
  have hu := filterMap_uptime_eq records (pyStrip (pyLower region))
  constructor
  · simp only [compute_for_region, hu, ite_isEmpty_mean]
  · intro he
    simp only [compute_for_region, hu, ite_isEmpty_mean, he, List.map_nil]
    show pyRound (mean []) 6 = 0
    rw [show mean [] = 0 from rfl, pyRound_zero]

/-- Claim C4 witness: a dataset where the only matching record has a
null uptime yields `avg_uptime = 0`. -/
theorem claim_avg_uptime_excludes_null_witness :
    (compute_for_region [TelemetryRecord.mk "x" 5 none] "x" 1).avg_uptime = 0 :=
  (claim_avg_uptime_excludes_null [TelemetryRecord.mk "x" 5 none] "x" 1).2 (by
    simp [region_matches, List.filter_cons])

/-- Claim C5: a region with zero matching records yields the all-zero
result (not an error), and the request handler includes that all-zero
result in the response under the requested region string. -/
theorem claim_zero_match_all_zero (records : List TelemetryRecord) (region : String) (t : ℚ)
    (h : records.filter (region_matches (pyStrip (pyLower region))) = []) :
    compute_for_region records region t = MetricsResult.mk 0 0 0 0 ∧
    (∀ regions : List String, region ∈ regions →
      (region, MetricsResult.mk 0 0 0 0) ∈ post_metrics records regions t) := by
  have hforall := List.filter_eq_nil_iff.mp h
  have hu : records.filter (fun x =>
      region_matches (pyStrip (pyLower region)) x && x.uptime.isSome) = [] :=
    List.filter_eq_nil_iff.mpr (fun x hx => by simp [hforall x hx])
  have hz : compute_for_region records region t = MetricsResult.mk 0 0 0 0 := by
    simp only [compute_for_region, filterMap_uptime_eq, hu, h, List.map_nil]
    show MetricsResult.mk (pyRound (mean []) 4) (pyRound (percentile [] 95) 4)
        (pyRound (if ([] : List ℚ).isEmpty then 0 else mean []) 6) (List.countP _ []) =
      MetricsResult.mk 0 0 0 0
    rw [show mean [] = (0 : ℚ) from rfl, show percentile [] 95 = (0 : ℚ) from rfl]
    simp [pyRound_zero]
  refine ⟨hz, fun regions hmem => ?_⟩
  have := mem_post_metrics records regions t hmem
  rwa [hz] at this

/-- Claim C5 witness: the all-zero result for an unmatched region,
present in the handler response. -/
theorem claim_zero_match_all_zero_witness :
    compute_for_region [] "x" 1 = MetricsResult.mk 0 0 0 0 ∧
    ("x", MetricsResult.mk 0 0 0 0) ∈ post_metrics [] ["x"] 1 :=
  ⟨(claim_zero_match_all_zero [] "x" 1 rfl).1,
   (claim_zero_match_all_zero [] "x" 1 rfl).2 ["x"] (by simp)⟩

/-- Claim C6 counterexample: the response is a dict, so two occurrences
of the same literal region string do NOT both appear in the output: the
mapping for the request `regions = ["x", "x"]` has a single entry, not
one entry per occurrence as the claim states. -/
theorem claim_response_keys_cx :
    post_metrics [] ["x", "x"] 1 ≠
      (["x", "x"]).map (fun r => (r, compute_for_region [] r 1)) := by
  intro hcontra
  rw [post_metrics_eq] at hcontra
  have hlen := congrArg List.length hcontra
  simp [firstOccurrences] at hlen

/-- Claim C6 (amended): the response maps each distinct literal region
string, in first-occurrence input order, to the engine result computed
for that literal (original, unnormalized) string; occurrences with the
same literal string collapse into a single entry (each occurrence is
still computed, with the same result), while case variants remain
distinct keys. -/
theorem claim_response_keys_amended (records : List TelemetryRecord) (regions : List String)
    (t : ℚ) :
    post_metrics records regions t =
      (firstOccurrences regions).map (fun r => (r, compute_for_region records r t)) :=
  post_metrics_eq records regions t

/-- Claim C8 witness: the validator rejects an empty region list and a
zero threshold. -/
theorem claim_validation_rejects_witness :
    handle_post [] [] 1 = Except.error () ∧ handle_post [] ["x"] 0 = Except.error () :=
  ⟨claim_validation_rejects [] [] 1 (Or.inl rfl),
   claim_validation_rejects [] ["x"] 0 (Or.inr le_rfl)⟩

/-- Claim C7 counterexample: a row whose region value is truthy but not
a string (here the number 7) makes `.strip()` raise an AttributeError
that escapes `_ingest_row`, and a single such record aborts the whole
load — the rejection is neither silent nor non-fatal. -/
theorem claim_row_rejection_cx :
    _ingest_row { region := some (JVal.num 7), latency_ms := some (JVal.num 5) } =
      Except.error () ∧
    load_records
      [{ region := some (JVal.num 7), latency_ms := some (JVal.num 5) },
       { region := some (JVal.str "apac" none), latency_ms := some (JVal.num 100) }] =
      Except.error LoadError.attrError := by
  have h7 : truthy (JVal.num 7) = true := by
    norm_num [truthy]
  have hbad : _ingest_row { region := some (JVal.num 7), latency_ms := some (JVal.num 5) } =
      Except.error () := by
    simp [_ingest_row, h7, pyStripLower, rowGet]
  exact ⟨hbad, by simp [load_records, ingestAll, hbad]⟩

/-- Claim C7 (amended): a malformed row is rejected silently and
non-fatally whenever its region value is absent, null, falsy, or a
string — this covers every example of the claim (missing latency,
non-numeric latency, blank region); only a row whose region value is
truthy and not a string raises. -/
theorem claim_row_rejection_amended (row : Row)
    (h : (∃ s p, rowGet row.region = JVal.str s p) ∨ truthy (rowGet row.region) = false) :
    _ingest_row row ≠ Except.error () := by
  obtain ⟨region, hps⟩ : ∃ r, pyStripLower (if truthy (rowGet row.region) then rowGet row.region
      else JVal.str "" none) = Except.ok r := by
    rcases h with ⟨s, p, hs⟩ | hf
    · by_cases ht : truthy (rowGet row.region)
      · rw [if_pos ht, hs]; exact ⟨_, rfl⟩
      · rw [if_neg ht]; exact ⟨_, rfl⟩
    · rw [if_neg (by simp [hf])]; exact ⟨_, rfl⟩
  intro hcontra
  simp only [_ingest_row, hps] at hcontra
  cases hf : pyFloat (if row.latency_ms.isSome then rowGet row.latency_ms
      else rowGet row.latency) with
  | none => simp [hf] at hcontra
  | some l =>
    simp only [hf] at hcontra
    by_cases hr : region ≠ ""
    · rw [if_pos hr] at hcontra; exact Except.noConfusion hcontra
    · rw [if_neg hr] at hcontra; exact Except.noConfusion hcontra

/-- Claim C7 amended witness: a row with no region key at all (and a
numeric latency) is handled without an exception. -/
theorem claim_row_rejection_amended_witness :
    _ingest_row { latency_ms := some (JVal.num 5) } ≠ Except.error () :=
  claim_row_rejection_amended { latency_ms := some (JVal.num 5) } (Or.inr rfl)

/-- Claim C9: when ingestion of every row completes without an escaping
exception, the load fails with the fatal DataError exactly when zero
rows were accepted, returns the non-empty accepted dataset when at
least one row was accepted, and never returns an empty dataset. -/
theorem claim_empty_dataset_fatal (rows : List Row)
    (hok : ∀ row ∈ rows, _ingest_row row ≠ Except.error ()) :
    (load_records rows = Except.error LoadError.dataError ↔ acceptedRecords rows = []) ∧
    (acceptedRecords rows ≠ [] → load_records rows = Except.ok (acceptedRecords rows)) ∧
    (∀ l, load_records rows = Except.ok l → l ≠ []) := by
  have hall := ingestAll_eq_of_ok rows hok
  have hload : load_records rows =
      (if (acceptedRecords rows).isEmpty then Except.error LoadError.dataError
       else Except.ok (acceptedRecords rows)) := by
    simp only [load_records, hall]
  rw [hload]
  by_cases he : acceptedRecords rows = []
  · simp [he]
  · rw [if_neg (by simp [List.isEmpty_iff, he])]
    refine ⟨⟨fun hcontra => Except.noConfusion hcontra, fun hcontra => absurd hcontra he⟩,
      fun _ => rfl, fun l hl => ?_⟩
    have hle : acceptedRecords rows = l := by injection hl
    rw [← hle]
    exact he

/-- Claim C9 witness: an empty dataset is fatal; a dataset with one
usable row loads as that one record. -/
theorem claim_empty_dataset_fatal_witness :
    load_records [] = Except.error LoadError.dataError ∧
    load_records [{ region := some (JVal.str "x" none), latency_ms := some (JVal.num 5) }] =
      Except.ok [TelemetryRecord.mk "x" 5 none] := by
  constructor
  · exact (claim_empty_dataset_fatal [] (by simp)).1.mpr rfl
  · have hok : ∀ row ∈ [({ region := some (JVal.str "x" none), latency_ms := some (JVal.num 5) } : Row)], _ingest_row row ≠ Except.error () := by
      intro row hr
      rw [List.mem_singleton] at hr
      subst hr
      rw [show _ingest_row { region := some (JVal.str "x" none), latency_ms := some (JVal.num 5) } = Except.ok (some (TelemetryRecord.mk "x" 5 none)) from rfl]
      exact fun hc => Except.noConfusion hc
    have h := (claim_empty_dataset_fatal
      [{ region := some (JVal.str "x" none), latency_ms := some (JVal.num 5) }] hok).2.1
      (by rw [show acceptedRecords [{ region := some (JVal.str "x" none), latency_ms := some (JVal.num 5) }] = [TelemetryRecord.mk "x" 5 none] from rfl]; simp)
    rwa [show acceptedRecords [{ region := some (JVal.str "x" none), latency_ms := some (JVal.num 5) }] = [TelemetryRecord.mk "x" 5 none] from rfl] at h

/-- Claim C10 counterexample: with `uptime` null, `up` present but null
and `is_up` equal to true, the stored uptime is null even though
`is_up` is neither null nor absent — `row.get("up", row.get("is_up"))`
returns the present-but-null `up` value and blocks the `is_up`
fallback, so the claim that the stored uptime is null only when all
three keys are null/absent is false. -/
theorem claim_uptime_fallback_cx :
    _ingest_row { region := some (JVal.str "x" none), latency_ms := some (JVal.num 5), uptime := some JVal.null, up := some JVal.null, is_up := some (JVal.bool true) } = Except.ok (some (TelemetryRecord.mk "x" 5 none)) ∧
    JVal.bool true ≠ JVal.null :=
  ⟨rfl, by simp⟩

/-- Claim C10 (amended): the stored uptime of an accepted row is the
coercion of the selected source value: `uptime` itself when non-null,
otherwise the value of the `up` key when that key is present (even when
its value is null, which then blocks `is_up`), otherwise the value of
`is_up`. -/
theorem claim_uptime_fallback_amended (row : Row) (rec : TelemetryRecord)
    (h : _ingest_row row = Except.ok (some rec)) :
    rec.uptime = coerce_uptime (uptimeSource row) ∧
    (rowGet row.uptime = JVal.null → row.up.isSome →
      rec.uptime = coerce_uptime (rowGet row.up)) ∧
    (rowGet row.uptime = JVal.null → row.up = none →
      rec.uptime = coerce_uptime (rowGet row.is_up)) := by
  have h1 : rec.uptime = coerce_uptime (uptimeSource row) := by
    cases hps : pyStripLower (if truthy (rowGet row.region) then rowGet row.region
        else JVal.str "" none) with
    | error e =>
      simp only [_ingest_row, hps] at h
      exact Except.noConfusion h
    | ok region =>
      simp only [_ingest_row, hps] at h
      cases hf : pyFloat (if row.latency_ms.isSome then rowGet row.latency_ms
          else rowGet row.latency) with
      | none =>
        simp only [hf] at h
        simp at h
      | some l =>
        simp only [hf] at h
        by_cases hr : region ≠ ""
        · rw [if_pos hr] at h
          simp only [Except.ok.injEq, Option.some.injEq] at h
          rw [← h]
        · rw [if_neg hr] at h
          simp at h
  refine ⟨h1, fun hnull hup => ?_, fun hnull hup => ?_⟩
  · rw [h1]
    simp [uptimeSource, hnull, hup]
  · rw [h1]
    simp [uptimeSource, hnull, hup]

/-- Claim C10 amended witness: the example row with null `uptime` and
`up = true` stores uptime 1. -/
theorem claim_uptime_fallback_amended_witness :
    TelemetryRecord.uptime (TelemetryRecord.mk "x" 5 (some 1)) =
      coerce_uptime (rowGet (some (JVal.bool true))) :=
  (claim_uptime_fallback_amended
    { region := some (JVal.str "x" none), latency_ms := some (JVal.num 5), uptime := some JVal.null, up := some (JVal.bool true) }
    (TelemetryRecord.mk "x" 5 (some 1)) rfl).2.1 rfl rfl

end Telemetry
